import Mathlib

/-!  Verification development for the Blender add-ons of this repository:
"Export Simplifier" (src/export_simplifier.py) and "Export Tester"
(src/export_tester.py).

The Python add-ons are thin orchestration layers over the Blender host API.
The host state they read and mutate (image datablocks, material node trees,
render settings, selection, operator reports) is embedded below as explicit
record types, and every operator is translated into a pure state-passing
function that mirrors the source control flow statement by statement.  Host
calls whose outcome depends on the environment (directory creation, the
per-channel bake call) become boolean parameters of the model.  Host
exceptions are modelled explicitly: an operation on a removed node raises,
mirroring the ReferenceError Blender raises on a dangling StructRNA
reference, and an uncaught exception ends the operator without a normal
return value.
-/

namespace BlenderExport

/-- Python dict assignment `d[k] = v` on an insertion-ordered association
list: overrides the existing binding in place, otherwise appends. -/
def pyUpdate1 {K V : Type} [DecidableEq K] : List (K × V) → K → V → List (K × V)
  | [], k, v => [(k, v)]
  | p :: rest, k, v => if p.1 = k then (k, v) :: rest else p :: pyUpdate1 rest k v

/-- A Python dict literal or comprehension built from a sequence of
key-value pairs (later bindings override earlier ones). -/
def pyDict {K V : Type} [DecidableEq K] (l : List (K × V)) : List (K × V) :=
  l.foldl (fun d p => pyUpdate1 d p.1 p.2) []

/-- Lookup in an association list (first binding wins; `pyDict` results have
unique keys so this is Python dict lookup). -/
def assocFind {K V : Type} [DecidableEq K] : List (K × V) → K → Option V
  | [], _ => none
  | p :: rest, k => if p.1 = k then some p.2 else assocFind rest k

/-- Last binding of a key in a plain pair sequence; this is what a Python
dict built from the sequence answers for that key. -/
def lastAssoc {K V : Type} [DecidableEq K] : List (K × V) → K → Option V
  | [], _ => none
  | p :: rest, k =>
    match lastAssoc rest k with
    | some v => some v
    | none => if p.1 = k then some p.2 else none

/-- Python str.lower: lowercase each character.  (The core String.toLower is
compiled behind a helper that blocks kernel evaluation; mapping Char.toLower
over the character sequence is the same function on the inputs involved.) -/
def strLower (s : String) : String := String.mk (s.data.map Char.toLower)

/-- Python str.strip: drop leading and trailing whitespace.  (Core
String.trim is compiled behind helpers that block kernel evaluation; this
structural version drops whitespace at both ends of the character sequence,
the same function.) -/
def strStrip (s : String) : String :=
  String.mk (((s.data.dropWhile Char.isWhitespace).reverse.dropWhile Char.isWhitespace).reverse)

-- ======================================================================
-- Export Tester (src/export_tester.py)
-- ======================================================================

namespace ExportTester

/-- A Python value appearing in an exporter argument dict (strings, booleans
and numeric literals occur in the source tables; numeric literals are kept
verbatim). -/
inductive PyVal where
  | str (s : String)
  | boolean (b : Bool)
  | num (lit : String)
deriving DecidableEq

/-- `expand_options` from src/export_tester.py: builds the dict comprehension
keyed by `basename + "_" + value.lower()` with value `pyDict [(argname, value)]`,
then, when `additional_args` is non-empty (Python truthiness of the optional
dict), updates every value dict with the additional arguments. -/
def expand_options (basename argname : String) (values : List String)
    (additional_args : List (String × PyVal)) : List (String × List (String × PyVal)) :=
  let d := pyDict (values.map (fun v => (basename ++ "_" ++ strLower v, pyDict [(argname, PyVal.str v)])))
  if additional_args.isEmpty then d
  else d.map (fun p => (p.1, additional_args.foldl (fun dd q => pyUpdate1 dd q.1 q.2) p.2))

/-- A scene object as far as `EXPORT_TESTER_OT_export_tester.perform_export`
inspects it: its name, whether it is a mesh, whether it is visible, and
whether its first user collection is the special collection named
Separate_objects (the membership test the source performs). -/
structure SceneObject where
  name : String
  isMesh : Bool
  visible : Bool
  inSeparate : Bool
deriving DecidableEq

/-- One invocation of a native Blender export function: the selection it is
called on (use_selection is always True in the source) and the option-set
name, which also determines the output file name. -/
structure ExportCall where
  selection : List String
  option : String
deriving DecidableEq

/-- The selection produced by `select_objects_in_collection`: every object of
the Separate_objects collection. -/
def collectionSelection (objs : List SceneObject) : List String :=
  (objs.filter (fun o => o.inSeparate)).map (fun o => o.name)

/-- The object loop of `perform_export` for one format: walks the scene
objects carrying the `collection_exported` flag, emitting one export call per
option-set for each visible mesh, where the whole Separate_objects collection
is selected together and processed only on its first visible mesh member. -/
def performExportAux (objs : List SceneObject) (options : List String) :
    List SceneObject → Bool → List ExportCall
  | [], _ => []
  | o :: rest, flag =>
    if o.isMesh && o.visible then
      if o.inSeparate then
        if flag then performExportAux objs options rest flag
        else (options.map (fun a => ExportCall.mk (collectionSelection objs) a)) ++
          performExportAux objs options rest true
      else (options.map (fun a => ExportCall.mk [o.name] a)) ++
        performExportAux objs options rest flag
    else performExportAux objs options rest flag

/-- `perform_export` for one format: the emitted exporter invocations, in
order.  Each invocation writes exactly one output file. -/
def performExport (objs : List SceneObject) (options : List String) : List ExportCall :=
  performExportAux objs options objs false

/-- Total number of exporter invocations of one `execute` run over the given
per-format option tables (the loop over `formats` in the source). -/
def totalExportCalls (objs : List SceneObject) (formatOptions : List (List String)) : Nat :=
  (formatOptions.map (fun opts => (performExport objs opts).length)).sum

/-- Number of visible mesh objects in the scene (the N of the claim). -/
def visibleMeshCount (objs : List SceneObject) : Nat :=
  (objs.filter (fun o => o.isMesh && o.visible)).length

/-- The number of export units the loop actually processes: each visible mesh
outside the Separate_objects collection counts once, and the whole collection
counts once when it contains at least one visible mesh. -/
def effectiveObjectCount (objs : List SceneObject) : Nat :=
  (objs.filter (fun o => o.isMesh && o.visible && !o.inSeparate)).length +
    (if objs.any (fun o => o.isMesh && o.visible && o.inSeparate) then 1 else 0)

end ExportTester

-- ======================================================================
-- Export Simplifier (src/export_simplifier.py)
-- ======================================================================

namespace Simplifier

/-- Outcome of a Blender operator execute call; EXCEPTION models an uncaught
Python exception escaping the operator (no return value is produced). -/
inductive OpResult where
  | FINISHED
  | CANCELLED
  | EXCEPTION (msg : String)
deriving DecidableEq

/-- Outcome of an inner function that normally returns a value but may let a
host exception escape. -/
inductive Flow (α : Type) where
  | ret (a : α)
  | exn (msg : String)
deriving DecidableEq

/-- An image datablock in bpy.data.images, as far as the bake operator reads
and writes it. -/
structure Image where
  name : String
  width : Nat
  height : Nat
  colorspace : String := "sRGB"
deriving DecidableEq

/-- A material node tree: identity, the identities of its nodes, whether it
contains a node of type OUTPUT_MATERIAL, and the node currently feeding the
output Surface socket (none when the socket has no incoming link).  Node
locations and links between internal nodes carry no claim content and are
not tracked. -/
structure NodeTree where
  id : Nat
  nodes : List Nat
  hasOutput : Bool
  outputLink : Option Nat
deriving DecidableEq

/-- A material together with the identity of its node tree.  The statement
material.use_nodes = True in bake_textures only matters for materials without
a node tree, which are outside the modelled scope. -/
structure Material where
  name : String
  treeId : Nat
deriving DecidableEq

/-- BakeDataGroup: the user-edited bake settings.  bake_types is the chosen
enum-flag set; the Python set iteration order in generate_texture is
unspecified, so the list order stands for one admissible order. -/
structure Baker where
  texture_name : String
  width : Nat
  height : Nat
  bake_types : List String
  device : String
  use_texture : Bool
  export_after : Bool
deriving DecidableEq

/-- The ExportDataGroup fields the bake operator reads: the bake toggle, the
unwrap toggle, and whether os.path.exists holds of the export directory. -/
structure SimplifierProps where
  bake : Bool
  unwrap : Bool
  export_dir_exists : Bool
deriving DecidableEq

/-- The parts of the host context the bake operator reads without mutating,
plus the environment-determined outcomes of host calls: the number of
selected objects, whether the active object has UV layers, the material list
with its selected flags, the material slot names of the active object, the bake
channels on which bpy.ops.object.bake raises RuntimeError, and whether the
two create_subdir calls of save_textures succeed. -/
structure HostEnv where
  selectedCount : Nat
  uvLayers : Bool
  material_group : List (Material × Bool)
  activeSlots : List String
  bakeFailChannels : List String
  objDirOk : Bool
  texDirOk : Bool
deriving DecidableEq

/-- The mutable host state of one bake invocation together with the operator
instance attributes texture_nodes and textures_to_create.  A fresh operator
instance starts with the class-level empty texture_nodes dict.  uvProjected
and scaleApplied record whether the smart UV projection and the scale
transform_apply of unwrap() ran (mutations of the UV layers and
scale). -/
structure BakeState where
  images : List Image
  trees : List NodeTree
  engine : String
  device : String
  model_unwrapped : Bool
  reports : List String
  texture_nodes : List (Nat × List (String × Nat))
  textures_to_create : List String
  nextNode : Nat
  uvProjected : Bool
  scaleApplied : Bool
deriving DecidableEq

def report (s : BakeState) (msg : String) : BakeState :=
  { s with reports := s.reports ++ [msg] }

/-- unwrap() from the module top level: apply the scale transform, smart
project the UVs and set the scene flag, unless the flag says the model was
already unwrapped. -/
def unwrapOp (s : BakeState) : BakeState :=
  if !s.model_unwrapped then
    { s with scaleApplied := true, uvProjected := true, model_unwrapped := true }
  else s

/-- SIMPLIFIER_OT_bake.texture_exists: scans bpy.data.images in order; an
image of the requested name with matching size means reuse, a size mismatch
raises AttributeError. -/
def texture_exists (images : List Image) (texture_name : String) (bw bh : Nat) :
    Except String Bool :=
  match images with
  | [] => .ok false
  | img :: rest =>
    if img.name = texture_name ∧ img.width = bw ∧ img.height = bh then .ok true
    else if img.name = texture_name ∧ (img.width ≠ bw ∨ img.height ≠ bh) then
      .error "Cannot change textures resolution"
    else texture_exists rest texture_name bw bh

def resolutionErrorMsg : String :=
  "Cannot change resolution of existing texture, delete texture in Blender or use another name."

/-- The per-channel loop of generate_texture: reuse or allocate the image for
each channel, aborting with the resolution error report when texture_exists
raises AttributeError. -/
def generateLoop (baker : Baker) : List String → BakeState → Bool × BakeState
  | [], s => (true, s)
  | m :: rest, s =>
    match texture_exists s.images (baker.texture_name ++ "_" ++ m) baker.width baker.height with
    | .error _ => (false, report s resolutionErrorMsg)
    | .ok true => generateLoop baker rest s
    | .ok false =>
      generateLoop baker rest
        { s with
          images := s.images ++
            [{ name := baker.texture_name ++ "_" ++ m, width := baker.width, height := baker.height }] }

/-- SIMPLIFIER_OT_bake.generate_texture. -/
def generate_texture (baker : Baker) (s : BakeState) : Bool × BakeState :=
  if strStrip baker.texture_name = "" then (false, report s "No texture name set.")
  else
    let s1 := { s with textures_to_create := baker.bake_types.map (fun n => strLower n) }
    generateLoop baker s1.textures_to_create s1

/-- The effect of removing node nid on one tree: erase the node and, when it
fed the output socket, drop that link; trees with a different identity are
untouched. -/
def patchRemove (tid nid : Nat) (t : NodeTree) : NodeTree :=
  if t.id = tid then
    { t with
      nodes := t.nodes.erase nid,
      outputLink := if t.outputLink = some nid then none else t.outputLink }
  else t

/-- node_tree.nodes.remove: locates the tree by identity and erases the node;
removing a node that is no longer in the tree raises, mirroring the
ReferenceError on a dangling StructRNA reference. -/
def removeNode (trees : List NodeTree) (tid nid : Nat) : Option (List NodeTree) :=
  match trees with
  | [] => none
  | t :: rest =>
    if t.id = tid then
      if nid ∈ t.nodes then some (patchRemove tid nid t :: rest)
      else none
    else (removeNode rest tid nid).map (fun r => t :: r)

/-- Sequential node removal; stops at the first failure, keeping the
mutations already made (the exception propagates). -/
def removeList (trees : List NodeTree) : List (Nat × Nat) → Option String × List NodeTree
  | [] => (none, trees)
  | (tid, nid) :: rest =>
    match removeNode trees tid nid with
    | none => (some "ReferenceError: node has been removed", trees)
    | some t2 => removeList t2 rest

/-- The removals one entry of texture_nodes triggers in clean_up: all values
of the node dict, or only the node recorded under specific_texture (a missing
key raises KeyError). -/
def cleanUpTree (trees : List NodeTree) (tid : Nat) (dict : List (String × Nat))
    (specific : Option String) : Option String × List NodeTree :=
  match specific with
  | none => removeList trees (dict.map (fun q => (tid, q.2)))
  | some key =>
    match assocFind dict key with
    | none => (some "KeyError", trees)
    | some nid => removeList trees [(tid, nid)]

def cleanUpGo (specific : Option String) :
    List (Nat × List (String × Nat)) → List NodeTree → Option String × List NodeTree
  | [], trees => (none, trees)
  | (tid, dict) :: rest, trees =>
    match cleanUpTree trees tid dict specific with
    | (some e, trees2) => (some e, trees2)
    | (none, trees2) => cleanUpGo specific rest trees2

/-- SIMPLIFIER_OT_bake.clean_up: removes the recorded generated nodes (all of
them, or only the one recorded under specific_texture).  texture_nodes itself
is not cleared. -/
def clean_up (s : BakeState) (specific : Option String) : Option String × BakeState :=
  ((cleanUpGo specific s.texture_nodes s.trees).1,
   { s with trees := (cleanUpGo specific s.texture_nodes s.trees).2 })

/-- The tree and node identity of every node recorded in texture_nodes, in
the order clean_up removes them. -/
def createdPairs (tn : List (Nat × List (String × Nat))) : List (Nat × Nat) :=
  (tn.map (fun p => p.2.map (fun q => (p.1, q.2)))).flatten

/-- Applying a sequence of node removals as pure patches (the state a fully
successful clean_up leaves behind). -/
def patchAll (pairs : List (Nat × Nat)) (trees : List NodeTree) : List NodeTree :=
  pairs.foldl (fun tr pr => tr.map (patchRemove pr.1 pr.2)) trees

def getTree (trees : List NodeTree) (tid : Nat) : Option NodeTree :=
  trees.find? (fun t => t.id == tid)

def addNode (trees : List NodeTree) (tid nid : Nat) : List NodeTree :=
  trees.map (fun t => if t.id = tid then { t with nodes := t.nodes ++ [nid] } else t)

/-- nodes.new: allocates a fresh node identity in the given tree. -/
def newNode (s : BakeState) (tid : Nat) : Nat × BakeState :=
  (s.nextNode, { s with nextNode := s.nextNode + 1, trees := addNode s.trees tid s.nextNode })

def texNodesInsert (tn : List (Nat × List (String × Nat))) (tid : Nat) (key : String)
    (nid : Nat) : List (Nat × List (String × Nat)) :=
  tn.map (fun p => if p.1 = tid then (p.1, pyUpdate1 p.2 key nid) else p)

def findImage (images : List Image) (nm : String) : Option Image :=
  images.find? (fun i => i.name == nm)

def setColorspace (images : List Image) (nm cs : String) : List Image :=
  images.map (fun i => if i.name = nm then { i with colorspace := cs } else i)

/-- The per-channel texture-node creation loop of prepare_new_nodes: one new
image-sample node per requested channel, its image assigned from
bpy.data.images (KeyError if missing), non-diffuse channels switched to
Non-Color data. -/
def prepTexLoop (baker : Baker) (tid : Nat) : List String → BakeState → Option String × BakeState
  | [], s => (none, s)
  | m :: rest, s =>
    match newNode s tid with
    | (nid, s1) =>
      let s2 := { s1 with texture_nodes := texNodesInsert s1.texture_nodes tid m nid }
      match findImage s2.images (baker.texture_name ++ "_" ++ m) with
      | none => (some "KeyError: image not found", s2)
      | some _ =>
        let s3 :=
          if m ≠ "diffuse" then
            { s2 with images := setColorspace s2.images (baker.texture_name ++ "_" ++ m) "Non-Color" }
          else s2
        prepTexLoop baker tid rest s3

/-- What prepare_new_nodes communicates to bake_textures for one material: an
uncaught host exception, the False return for a missing output node, or
success together with the deferred-reconnection entries this material appends
to connect_to_outputs (new: the synthesized principled node, none when the
captured local was never assigned; old: the node previously feeding the
output). -/
inductive PrepOut where
  | exn (msg : String)
  | noOutput
  | ok (newEntries : List (Nat × Option Nat)) (oldEntries : List (Nat × Nat))
deriving DecidableEq

/-- SIMPLIFIER_OT_bake.prepare_new_nodes: find the output node (False when
absent), remember the node feeding the output Surface socket (IndexError when
the socket has no link), register the tree in texture_nodes, create the
per-channel texture nodes, and when the bake result is to be wired into the
material also synthesize the principled shader and, for normal maps, the
normal-map helper node.  The internal links into the principled node and all
node locations carry no claim content and are not tracked. -/
def prepare_new_nodes (baker : Baker) (s : BakeState) (tid : Nat) : PrepOut × BakeState :=
  match getTree s.trees tid with
  | none => (PrepOut.exn "missing node tree", s)
  | some t =>
    if !t.hasOutput then (PrepOut.noOutput, s)
    else
      match t.outputLink with
      | none => (PrepOut.exn "IndexError: output Surface socket has no link", s)
      | some oldFrom =>
        let s1 := { s with texture_nodes := pyUpdate1 s.texture_nodes tid [] }
        match prepTexLoop baker tid s1.textures_to_create s1 with
        | (some e, s2) => (PrepOut.exn e, s2)
        | (none, s2) =>
          let wantWire := baker.use_texture || baker.export_after
          let oldE : List (Nat × Nat) :=
            if wantWire && !baker.use_texture then [(tid, oldFrom)] else []
          if wantWire && !s2.textures_to_create.isEmpty then
            match newNode s2 tid with
            | (pid, s3) =>
              let s4 := { s3 with
                texture_nodes := texNodesInsert s3.texture_nodes tid "principled" pid }
              let s5 :=
                if s4.textures_to_create.contains "normal" then
                  match newNode s4 tid with
                  | (nmid, s5a) =>
                    { s5a with
                      texture_nodes := texNodesInsert s5a.texture_nodes tid "normal_map_node" nmid }
                else s4
              let newE : List (Nat × Option Nat) := if wantWire then [(tid, some pid)] else []
              (PrepOut.ok newE oldE, s5)
          else
            let newE : List (Nat × Option Nat) := if wantWire then [(tid, none)] else []
            (PrepOut.ok newE oldE, s2)

/-- Result of the material loop at the top of bake_textures. -/
inductive PrepAll where
  | exn (msg : String)
  | missing (matName : String)
  | ok (newC : List (Nat × Option Nat)) (oldC : List (Nat × Nat))
deriving DecidableEq

/-- The material loop of bake_textures: prepare the nodes of each material,
stopping at the first material with no output node. -/
def prepMaterials (baker : Baker) :
    List Material → List (Nat × Option Nat) → List (Nat × Nat) → BakeState →
      PrepAll × BakeState
  | [], accN, accO, s => (PrepAll.ok accN accO, s)
  | m :: rest, accN, accO, s =>
    match prepare_new_nodes baker s m.treeId with
    | (PrepOut.exn e, s1) => (PrepAll.exn e, s1)
    | (PrepOut.noOutput, s1) => (PrepAll.missing m.name, s1)
    | (PrepOut.ok newE oldE, s1) => prepMaterials baker rest (accN ++ newE) (accO ++ oldE) s1

/-- set_nodes_as_active only moves the active-node pointer, which carries no
claim content; the model keeps the dict access that can raise KeyError. -/
def set_nodes_as_active (tn : List (Nat × List (String × Nat))) (ttype : String) :
    Option String :=
  if tn.all (fun p => (assocFind p.2 ttype).isSome) then none else some "KeyError"

inductive BakeLoopRes where
  | ok
  | runtimeErr
  | otherExn (msg : String)
deriving DecidableEq

/-- The channel loop inside the try block of bake_textures: per channel, mark
the bake target nodes active and call bpy.ops.object.bake; a channel listed
in bakeFailChannels raises the RuntimeError the except clause catches. -/
def bakeLoop (env : HostEnv) (tn : List (Nat × List (String × Nat))) :
    List String → BakeLoopRes
  | [] => BakeLoopRes.ok
  | m :: rest =>
    match set_nodes_as_active tn m with
    | some e => BakeLoopRes.otherExn e
    | none =>
      if m ∈ env.bakeFailChannels then BakeLoopRes.runtimeErr else bakeLoop env tn rest

/-- SIMPLIFIER_OT_bake.save_textures: resolve the per-object directory and
the baked_textures subdirectory, reporting and returning False when either is
unavailable; the image file writes themselves are host file IO with no claim
content. -/
def save_textures (env : HostEnv) (s : BakeState) : Flow Bool × BakeState :=
  if s.texture_nodes.isEmpty then (Flow.exn "StopIteration", s)
  else if env.selectedCount = 0 then (Flow.exn "IndexError: no selected object", s)
  else if !env.objDirOk then (Flow.ret false, report s "Cannot access chosen dir.")
  else if !env.texDirOk then (Flow.ret false, report s "Cannot access chosen dir.")
  else (Flow.ret true, s)

/-- node_tree.links.new from the output of a node to the material output socket:
raises when the source node reference is dangling (the node was removed). -/
def linkToOutput (trees : List NodeTree) (tid fromNode : Nat) :
    Option String × List NodeTree :=
  match getTree trees tid with
  | none => (some "missing node tree", trees)
  | some t =>
    if fromNode ∈ t.nodes then
      (none, trees.map (fun u => if u.id = tid then { u with outputLink := some fromNode } else u))
    else (some "ReferenceError: node has been removed", trees)

/-- Calling the deferred new-connection lambdas; a lambda whose principled
node local was never assigned raises NameError when called. -/
def connectNewList (trees : List NodeTree) : List (Nat × Option Nat) → Option String × List NodeTree
  | [] => (none, trees)
  | (_, none) :: _ => (some "NameError: principled node was never assigned", trees)
  | (tid, some pid) :: rest =>
    match linkToOutput trees tid pid with
    | (some e, t2) => (some e, t2)
    | (none, t2) => connectNewList t2 rest

/-- Calling the deferred old-connection lambdas. -/
def connectOldList (trees : List NodeTree) : List (Nat × Nat) → Option String × List NodeTree
  | [] => (none, trees)
  | (tid, nid) :: rest =>
    match linkToOutput trees tid nid with
    | (some e, t2) => (some e, t2)
    | (none, t2) => connectOldList t2 rest

/-- Lines 518 to 528 of bake_textures: call the saved new-connection lambdas,
trigger the export operator when requested (its effects live in the selection
and the filesystem, not in the bake state modelled here), and reconnect the
old output wiring when the textures are not kept in the material. -/
def connectPhase (baker : Baker) (newC : List (Nat × Option Nat)) (oldC : List (Nat × Nat))
    (s : BakeState) : Option String × BakeState :=
  if baker.use_texture || baker.export_after then
    match connectNewList s.trees newC with
    | (some e, t2) => (some e, { s with trees := t2 })
    | (none, t2) =>
      let s1 := { s with trees := t2 }
      if !baker.use_texture then
        match connectOldList s1.trees oldC with
        | (some e, t3) => (some e, { s1 with trees := t3 })
        | (none, t3) => (none, { s1 with trees := t3 })
      else (none, s1)
  else (none, s)

/-- Lines 534 to 536 of bake_textures: drop the glossy node, which has no
permanent destination, when the other bake nodes are kept in the material. -/
def glossyPhase (baker : Baker) (s : BakeState) : Flow Bool × BakeState :=
  if s.textures_to_create.contains "glossy" && baker.use_texture then
    match clean_up s (some "glossy") with
    | (some e, s1) => (Flow.exn e, s1)
    | (none, s1) => (Flow.ret true, s1)
  else (Flow.ret true, s)

/-- Lines 530 to 538 of bake_textures: delete all bake nodes when they are
not kept in the material, then drop the glossy node otherwise. -/
def afterConnect (baker : Baker) (s : BakeState) : Flow Bool × BakeState :=
  if !baker.use_texture then
    match clean_up s none with
    | (some e, s4) => (Flow.exn e, s4)
    | (none, s4) => glossyPhase baker s4
  else glossyPhase baker s

/-- Lines 518 to 538 of bake_textures: the reconnect phase followed by the
node deletions. -/
def afterSave (baker : Baker) (newC : List (Nat × Option Nat)) (oldC : List (Nat × Nat))
    (s : BakeState) : Flow Bool × BakeState :=
  match connectPhase baker newC oldC s with
  | (some e, s3) => (Flow.exn e, s3)
  | (none, s3) => afterConnect baker s3

/-- Lines 515 to 538 of bake_textures: save, clean up on save failure without
returning (the source has no return statement there, unlike the RuntimeError
branch), then the reconnect phase and the node deletions. -/
def afterBake (baker : Baker) (env : HostEnv) (newC : List (Nat × Option Nat))
    (oldC : List (Nat × Nat)) (s : BakeState) : Flow Bool × BakeState :=
  match save_textures env s with
  | (Flow.exn e, s1) => (Flow.exn e, s1)
  | (Flow.ret true, s1) => afterSave baker newC oldC s1
  | (Flow.ret false, s1) =>
    match clean_up s1 none with
    | (some e, s2) => (Flow.exn e, s2)
    | (none, s2) => afterSave baker newC oldC s2

/-- SIMPLIFIER_OT_bake.bake_textures: reset texture_nodes, prepare every
material, remember the render engine, switch to Cycles and set the device,
run the bake loop (the except clause catches RuntimeError, reports, cleans up
and returns False; the finally clause restores the engine on every exit of
the try block), then save and rewire. -/
def bake_textures (baker : Baker) (env : HostEnv) (materials : List Material)
    (s : BakeState) : Flow Bool × BakeState :=
  let sInit := { s with texture_nodes := [] }
  match prepMaterials baker materials [] [] sInit with
  | (PrepAll.exn e, s1) => (Flow.exn e, s1)
  | (PrepAll.missing nm, s1) =>
    (Flow.ret false, report s1 ("Output node is missing in " ++ nm ++ " material."))
  | (PrepAll.ok newC oldC, s1) =>
    let renderer_used := s1.engine
    let s2 := { s1 with engine := "CYCLES", device := baker.device }
    match bakeLoop env s2.texture_nodes s2.textures_to_create with
    | BakeLoopRes.otherExn e => (Flow.exn e, { s2 with engine := renderer_used })
    | BakeLoopRes.runtimeErr =>
      let s3 := report s2
        "Texture name refers to image which was deleted on disk, please use another name."
      match clean_up s3 none with
      | (some e, s4) => (Flow.exn e, { s4 with engine := renderer_used })
      | (none, s4) => (Flow.ret false, { s4 with engine := renderer_used })
    | BakeLoopRes.ok =>
      afterBake baker env newC oldC { s2 with engine := renderer_used }

def noUvMsg : String :=
  "Object has no UV map and unwrap is not selected. Please check the unwrap option or unwrap model manually."

/-- SIMPLIFIER_OT_bake.execute: reset model_unwrapped, run the validation
checks, unwrap when requested, extract the selected materials, generate the
textures and bake, cleaning up on each failure return. -/
def executeBake (baker : Baker) (sp : SimplifierProps) (env : HostEnv) (s : BakeState) :
    OpResult × BakeState :=
  let s0 := { s with model_unwrapped := false }
  if !sp.bake then (OpResult.CANCELLED, s0)
  else if env.selectedCount ≠ 1 then
    (OpResult.CANCELLED, report s0 "One object needs to be selected")
  else if baker.export_after && !sp.export_dir_exists then
    (OpResult.CANCELLED, report s0 "Cannot access chosen dir.")
  else
    let s1 := if sp.unwrap then unwrapOp s0 else s0
    if !sp.unwrap && !env.uvLayers then
      let s2 := report s1 noUvMsg
      match clean_up s2 none with
      | (some e, s3) => (OpResult.EXCEPTION e, s3)
      | (none, s3) => (OpResult.CANCELLED, s3)
    else
      let selected_materials :=
        (env.material_group.filter
          (fun p => p.2 && env.activeSlots.contains p.1.name)).map (fun p => p.1)
      if selected_materials.isEmpty then
        (OpResult.CANCELLED, report s1 "No materials selected")
      else
        match generate_texture baker s1 with
        | (false, s2) =>
          match clean_up s2 none with
          | (some e, s3) => (OpResult.EXCEPTION e, s3)
          | (none, s3) => (OpResult.CANCELLED, s3)
        | (true, s2) =>
          match bake_textures baker env selected_materials s2 with
          | (Flow.exn e, s3) => (OpResult.EXCEPTION e, s3)
          | (Flow.ret false, s3) =>
            match clean_up s3 none with
            | (some e, s4) => (OpResult.EXCEPTION e, s4)
            | (none, s4) => (OpResult.CANCELLED, s4)
          | (Flow.ret true, s3) => (OpResult.FINISHED, s3)

/-- SIMPLIFIER_OT_update_material_list.execute on the name and selected
content of the material list: save the previous selection keyed by material
name, clear the list, and rebuild it from the material slots of the active object,
marking an entry selected exactly when a same-named entry was recorded as
selected.  The material pointer and the active_material_index assignment
carry no claim content; active = none is the no-active-object early return,
which leaves the list cleared. -/
def update_material_list (group : List (String × Bool)) (active : Option (List String)) :
    List (String × Bool) :=
  let old := pyDict group
  match active with
  | none => []
  | some slots =>
    slots.map (fun nm =>
      (nm, match assocFind old nm with
           | some true => true
           | _ => false))

/-- The last selected flag recorded for a material name in the previous list
(Python dict writes keep the last binding). -/
def wasSelected (group : List (String × Bool)) (nm : String) : Bool :=
  match lastAssoc group nm with
  | some b => b
  | none => false

-- ----------------------------------------------------------------------
-- SIMPLIFIER_OT_export
-- ----------------------------------------------------------------------

/-- The scene state the export operator reads and mutates: the object names
of the file, the current selection in order, the active object, the
interaction mode of the active object, the operator reports and the
model_unwrapped flag. -/
structure ExpState where
  objects : List String
  selected : List String
  active : Option String
  mode : String
  reports : List String
  model_unwrapped : Bool
deriving DecidableEq

/-- The ExportDataGroup fields the export operator reads, plus the
environment-determined outcome of create_subdir. -/
structure ExpCfg where
  software : String
  format : String
  gltf_format : String
  unwrap : Bool
  dirOk : Bool
deriving DecidableEq

def reportE (s : ExpState) (msg : String) : ExpState :=
  { s with reports := s.reports ++ [msg] }

/-- deselect_all_objects: deselects every object of the scene, including
invisible ones. -/
def deselect_all_objects (s : ExpState) : ExpState := { s with selected := [] }

/-- SIMPLIFIER_OT_export.select_object: deselect everything, then select the
named object (the names passed in always exist in the scene). -/
def exp_select_object (s : ExpState) (nm : String) : ExpState :=
  { deselect_all_objects s with selected := [nm] }

/-- set_original_configuration: re-select each remembered object in turn,
restore the active object and set the interaction mode back. -/
def set_original_configuration (s : ExpState) (mode : String) (sel : List String)
    (act : Option String) : ExpState :=
  let s1 := sel.foldl (fun st nm => exp_select_object st nm) s
  { s1 with active := act, mode := mode }

def dupName (nm : String) : String := nm ++ ".001"

/-- bpy.ops.object.delete inside SIMPLIFIER_OT_export.clean_up: deletes the
selected objects. -/
def exp_clean_up (s : ExpState) : ExpState :=
  { s with objects := s.objects.filter (fun n => !s.selected.contains n), selected := [] }

/-- SIMPLIFIER_OT_export.perform_export: duplicate the selection, create the
output directory (report and delete the duplicates on failure), export the
duplicates for the chosen software (the host exporters and the per-format
origin, transform and unwrap fixes mutate only the duplicates, which are
deleted right after, plus the model_unwrapped flag), then delete the
duplicates.  An unsupported software profile raises NotImplementedError after
deleting the duplicates. -/
def exp_perform_export (cfg : ExpCfg) (s : ExpState) : Flow Bool × ExpState :=
  let dups := s.selected.map dupName
  let s1 := { s with objects := s.objects ++ dups, selected := dups, active := dups.head? }
  if !cfg.dirOk then
    let s2 := reportE s1 "Cannot access chosen dir."
    (Flow.ret false, exp_clean_up s2)
  else if cfg.software = "UNREAL" then
    let s2 :=
      if cfg.unwrap && !s1.model_unwrapped then { s1 with model_unwrapped := true } else s1
    (Flow.ret true, exp_clean_up s2)
  else if cfg.software = "UNITY" then
    (Flow.ret true, exp_clean_up s1)
  else
    (Flow.exn "NotImplementedError: This software is not supported", exp_clean_up s1)

/-- SIMPLIFIER_OT_export.execute: reset model_unwrapped, cancel when nothing
is selected, remember mode, active object and selection, switch to object
mode, export, and restore the remembered configuration on the return paths. -/
def executeExport (cfg : ExpCfg) (s : ExpState) : OpResult × ExpState :=
  let s0 := { s with model_unwrapped := false }
  if s0.selected.isEmpty then
    (OpResult.CANCELLED, reportE s0 "No models selected, please select models you want to export")
  else
    let current_mode := s0.mode
    let active_obj := s0.active
    let selected_objects := s0.selected
    let s1 := if current_mode ≠ "OBJECT" then { s0 with mode := "OBJECT" } else s0
    match exp_perform_export cfg s1 with
    | (Flow.exn e, s2) => (OpResult.EXCEPTION e, s2)
    | (Flow.ret false, s2) =>
      (OpResult.CANCELLED, set_original_configuration s2 current_mode selected_objects active_obj)
    | (Flow.ret true, s2) =>
      let s3 := set_original_configuration s2 current_mode selected_objects active_obj
      (OpResult.FINISHED, reportE s3 "Model successfully exported")

end Simplifier

end BlenderExport

-- ======================================================================
-- Concrete scenarios (used by the claim theorems below)
-- ======================================================================

namespace BlenderExport

namespace Scenario

open Simplifier ExportTester

/-- One material tree: node 0 is the OUTPUT_MATERIAL node, node 1 the shader
feeding its Surface socket. -/
def tree0 : NodeTree := { id := 0, nodes := [0, 1], hasOutput := true, outputLink := some 1 }

def mat0 : Material := { name := "Mat", treeId := 0 }

/-- Bake settings: one diffuse channel, nodes not kept, no export after. -/
def baker0 : Baker :=
  { texture_name := "tex", width := 1024, height := 1024, bake_types := ["DIFFUSE"],
    device := "CPU", use_texture := false, export_after := false }

def sp0 : SimplifierProps := { bake := true, unwrap := false, export_dir_exists := true }

/-- Benign host environment: one selected object with UV layers, the one
material selected, all host calls succeed. -/
def env0 : HostEnv :=
  { selectedCount := 1, uvLayers := true, material_group := [(mat0, true)],
    activeSlots := ["Mat"], bakeFailChannels := [], objDirOk := true, texDirOk := true }

/-- Fresh pre-call state: Eevee renderer, GPU device, no images, one material
tree, fresh operator instance. -/
def st0 : BakeState :=
  { images := [], trees := [tree0], engine := "BLENDER_EEVEE", device := "GPU",
    model_unwrapped := false, reports := [], texture_nodes := [], textures_to_create := [],
    nextNode := 100, uvProjected := false, scaleApplied := false }

/-- Host environment in which the bake call for the diffuse channel raises
RuntimeError. -/
def envBakeFail : HostEnv := { env0 with bakeFailChannels := ["diffuse"] }

/-- Host environment in which the per-object export subdirectory cannot be
created or accessed. -/
def envDirFail : HostEnv := { env0 with objDirOk := false }

/-- State for calling bake_textures directly: the diffuse image already
generated, textures_to_create set, device GPU before the call. -/
def stBake : BakeState :=
  { st0 with
    images := [{ name := "tex_diffuse", width := 1024, height := 1024 }],
    textures_to_create := ["diffuse"] }

/-- Host environment with an empty material list. -/
def envNoMat : HostEnv := { env0 with material_group := [] }

/-- Pre-call state whose model_unwrapped flag is set. -/
def stUnwrapped : BakeState := { st0 with model_unwrapped := true }

/-- Bake settings requesting diffuse and normal channels. -/
def bakerTwo : Baker := { baker0 with bake_types := ["DIFFUSE", "NORMAL"] }

/-- State holding an existing image tex_normal of a different resolution. -/
def stConflict : BakeState :=
  { st0 with images := [{ name := "tex_normal", width := 512, height := 512 }] }

/-- Settings with the bake toggle disabled. -/
def spNoBake : SimplifierProps := { sp0 with bake := false }

/-- Host environment with no selected object. -/
def envNoSel : HostEnv := { env0 with selectedCount := 0 }

/-- Host environment with three selected objects. -/
def envThreeSel : HostEnv := { env0 with selectedCount := 3 }

/-- A state recorded right after node creation: the created diffuse sample
node 100 lives in the tree and in texture_nodes. -/
def stCreated : BakeState :=
  { st0 with
    trees := [{ id := 0, nodes := [0, 1, 100], hasOutput := true, outputLink := some 1 }],
    texture_nodes := [(0, [("diffuse", 100)])], textures_to_create := ["diffuse"], nextNode := 101 }

/-- Export operator scene: two objects A and B both selected, B active,
object mode. -/
def es0 : ExpState :=
  { objects := ["A", "B"], selected := ["A", "B"], active := some "B", mode := "OBJECT",
    reports := [], model_unwrapped := false }

/-- Export settings: FBX for Unreal, no unwrap, accessible directory. -/
def ecfg : ExpCfg :=
  { software := "UNREAL", format := "FBX", gltf_format := "GLB", unwrap := false, dirOk := true }

/-- Two visible mesh objects that both live in the Separate_objects
collection. -/
def sceneTwoInCollection : List SceneObject :=
  [SceneObject.mk "A" true true true, SceneObject.mk "B" true true true]

end Scenario

end BlenderExport

-- ======================================================================
-- Lemmas
-- ======================================================================

namespace BlenderExport

lemma assocFind_pyUpdate1 {K V : Type} [DecidableEq K] (d : List (K × V)) (k k' : K) (v : V) :
    assocFind (pyUpdate1 d k v) k' = if k' = k then some v else assocFind d k' := by
  induction d with
  | nil =>
    by_cases h : k' = k
    · simp [pyUpdate1, assocFind, h]
    · have h2 : ¬ k = k' := fun hh => h hh.symm
      simp [pyUpdate1, assocFind, h, h2]
  | cons p rest ih =>
    by_cases hpk : p.1 = k
    · by_cases h : k' = k
      · simp [pyUpdate1, assocFind, hpk, h]
      · have h2 : ¬ k = k' := fun hh => h hh.symm
        have h3 : ¬ p.1 = k' := by rw [hpk]; exact h2
        simp [pyUpdate1, assocFind, hpk, h, h2, h3]
    · by_cases h : p.1 = k'
      · have h2 : ¬ k' = k := by
          intro hk
          exact hpk (by rw [h, hk])
        simp [pyUpdate1, assocFind, hpk, h, h2]
      · simp [pyUpdate1, assocFind, hpk, h, ih]

lemma assocFind_pyDict_go {K V : Type} [DecidableEq K] (l : List (K × V)) :
    ∀ (acc : List (K × V)) (k : K),
      assocFind (l.foldl (fun d p => pyUpdate1 d p.1 p.2) acc) k =
        match lastAssoc l k with
        | some v => some v
        | none => assocFind acc k := by
  induction l with
  | nil => intro acc k; simp [lastAssoc]
  | cons p rest ih =>
    intro acc k
    simp only [List.foldl_cons]
    rw [ih]
    simp only [lastAssoc]
    cases hr : lastAssoc rest k with
    | some v => simp
    | none =>
      simp only
      rw [assocFind_pyUpdate1]
      by_cases h : k = p.1
      · simp [h]
      · have h2 : ¬ p.1 = k := fun hh => h hh.symm
        simp [h, h2]

/-- Dict lookup after building a Python dict equals the last binding of the
key in the construction sequence. -/
lemma assocFind_pyDict {K V : Type} [DecidableEq K] (l : List (K × V)) (k : K) :
    assocFind (pyDict l) k = lastAssoc l k := by
  rw [pyDict, assocFind_pyDict_go]
  cases lastAssoc l k <;> simp [assocFind]

lemma pyUpdate1_not_mem {K V : Type} [DecidableEq K] (d : List (K × V)) (k : K) (v : V)
    (h : ∀ p ∈ d, p.1 ≠ k) : pyUpdate1 d k v = d ++ [(k, v)] := by
  induction d with
  | nil => simp [pyUpdate1]
  | cons p rest ih =>
    have hp : p.1 ≠ k := h p (by simp)
    simp [pyUpdate1, hp, ih (fun q hq => h q (by simp [hq]))]

lemma pyDict_go_nodup {K V : Type} [DecidableEq K] (l : List (K × V)) :
    ∀ (acc : List (K × V)), ((acc ++ l).map Prod.fst).Nodup →
      l.foldl (fun d p => pyUpdate1 d p.1 p.2) acc = acc ++ l := by
  induction l with
  | nil => intro acc _; simp
  | cons p rest ih =>
    intro acc hnd
    simp only [List.foldl_cons]
    have hmem : ∀ q ∈ acc, q.1 ≠ p.1 := by
      intro q hq hEq
      have h1 : q.1 ∈ acc.map Prod.fst := List.mem_map_of_mem Prod.fst hq
      have h2 : (p :: rest).map Prod.fst = p.1 :: rest.map Prod.fst := by simp
      have hd := hnd
      rw [List.map_append, h2, List.nodup_append] at hd
      have hq1 : q.1 ∈ p.1 :: rest.map Prod.fst := by simp [hEq]
      exact hd.2.2 h1 hq1
    rw [pyUpdate1_not_mem acc p.1 p.2 hmem]
    have : (acc ++ [(p.1, p.2)]) ++ rest = acc ++ p :: rest := by simp
    rw [ih (acc ++ [(p.1, p.2)]) (by rw [this]; exact hnd)]
    simp

/-- Building a Python dict from pairs with pairwise distinct keys keeps the
pair list unchanged. -/
lemma pyDict_nodup {K V : Type} [DecidableEq K] (l : List (K × V))
    (h : (l.map Prod.fst).Nodup) : pyDict l = l := by
  have := pyDict_go_nodup l [] (by simpa using h)
  simpa [pyDict] using this

lemma assocFind_map_snd {K V W : Type} [DecidableEq K] (g : V → W) (l : List (K × V)) (k : K) :
    assocFind (l.map (fun p => (p.1, g p.2))) k = (assocFind l k).map g := by
  induction l with
  | nil => simp [assocFind]
  | cons p rest ih =>
    by_cases h : p.1 = k <;> simp [assocFind, h, ih]

lemma assocFind_keyed_map {A K V : Type} [DecidableEq K] (keyf : A → K) (valf : A → V) :
    ∀ (values : List A) (v : A), v ∈ values → (values.map keyf).Nodup →
      assocFind (values.map (fun u => (keyf u, valf u))) (keyf v) = some (valf v) := by
  intro values
  induction values with
  | nil => intro v hv _; simp at hv
  | cons u rest ih =>
    intro v hv hnd
    rw [List.map_cons, List.nodup_cons] at hnd
    by_cases h : keyf u = keyf v
    · rcases List.mem_cons.mp hv with hvu | hvr
      · subst hvu
        simp [assocFind]
      · exfalso
        have hm : keyf v ∈ rest.map keyf := List.mem_map_of_mem keyf hvr
        rw [← h] at hm
        exact hnd.1 hm
    · rcases List.mem_cons.mp hv with hvu | hvr
      · subst hvu
        exact absurd rfl h
      · simp only [List.map_cons, assocFind, h, if_neg h]
        exact ih v hvr hnd.2

namespace ExportTester

lemma performExportAux_length (objs : List SceneObject) (opts : List String) :
    ∀ (l : List SceneObject) (flag : Bool),
      (performExportAux objs opts l flag).length =
        (l.filter (fun o => o.isMesh && o.visible && !o.inSeparate)).length * opts.length +
          (if !flag && l.any (fun o => o.isMesh && o.visible && o.inSeparate)
            then opts.length else 0) := by
  intro l
  induction l with
  | nil => intro flag; simp [performExportAux]
  | cons o rest ih =>
    intro flag
    by_cases hm : o.isMesh
    · by_cases hv : o.visible
      · by_cases hs : o.inSeparate
        · cases flag with
          | false =>
            simp [performExportAux, hm, hv, hs, ih, List.filter_cons, List.any_cons]
            ring
          | true =>
            simp [performExportAux, hm, hv, hs, ih, List.filter_cons, List.any_cons]
        · cases flag with
          | false =>
            simp [performExportAux, hm, hv, hs, ih, List.filter_cons, List.any_cons]
            ring
          | true =>
            simp [performExportAux, hm, hv, hs, ih, List.filter_cons, List.any_cons]
            ring
      · simp [performExportAux, hm, hv, ih, List.filter_cons, List.any_cons]
    · simp [performExportAux, hm, ih, List.filter_cons, List.any_cons]

lemma performExport_length (objs : List SceneObject) (opts : List String) :
    (performExport objs opts).length = effectiveObjectCount objs * opts.length := by
  rw [performExport, performExportAux_length, effectiveObjectCount]
  by_cases h : objs.any (fun o => o.isMesh && o.visible && o.inSeparate) <;>
    simp [h, Nat.add_mul]

end ExportTester

end BlenderExport

namespace BlenderExport

namespace Simplifier

lemma texture_exists_error_append (images more : List Image) (nm : String) (bw bh : Nat)
    (e : String) (h : texture_exists images nm bw bh = Except.error e) :
    texture_exists (images ++ more) nm bw bh = Except.error e := by
  induction images with
  | nil => simp [texture_exists] at h
  | cons img rest ih =>
    rw [List.cons_append]
    unfold texture_exists at h ⊢
    by_cases h1 : img.name = nm ∧ img.width = bw ∧ img.height = bh
    · rw [if_pos h1] at h
      exact Except.noConfusion h
    · rw [if_neg h1] at h ⊢
      by_cases h2 : img.name = nm ∧ (img.width ≠ bw ∨ img.height ≠ bh)
      · rw [if_pos h2] at h ⊢
        exact h
      · rw [if_neg h2] at h ⊢
        exact ih h

lemma generateLoop_conflict (baker : Baker) :
    ∀ (ms : List String) (s : BakeState),
      (∃ m ∈ ms, ∃ e, texture_exists s.images (baker.texture_name ++ "_" ++ m)
          baker.width baker.height = Except.error e) →
      (generateLoop baker ms s).1 = false ∧
      (∃ suffix, (generateLoop baker ms s).2.images = s.images ++ suffix) ∧
      (generateLoop baker ms s).2.reports = s.reports ++ [resolutionErrorMsg] := by
  intro ms
  induction ms with
  | nil =>
    intro s h
    obtain ⟨m, hm, _⟩ := h
    simp at hm
  | cons m0 rest ih =>
    intro s h
    obtain ⟨m, hm, e, he⟩ := h
    unfold generateLoop
    cases h0 : texture_exists s.images (baker.texture_name ++ "_" ++ m0)
        baker.width baker.height with
    | error e0 =>
      refine ⟨rfl, ⟨[], by simp [report]⟩, by simp [report]⟩
    | ok b =>
      cases b with
      | true =>
        rcases List.mem_cons.mp hm with hme | hmr
        · subst hme
          rw [h0] at he
          exact Except.noConfusion he
        · exact ih s ⟨m, hmr, e, he⟩
      | false =>
        rcases List.mem_cons.mp hm with hme | hmr
        · subst hme
          rw [h0] at he
          exact Except.noConfusion he
        · have he2 : texture_exists
              (s.images ++ [{ name := baker.texture_name ++ "_" ++ m0, width := baker.width, height := baker.height }])
              (baker.texture_name ++ "_" ++ m) baker.width baker.height = Except.error e :=
            texture_exists_error_append s.images _ _ _ _ e he
          obtain ⟨hfalse, ⟨suf, hsuf⟩, hrep⟩ := ih
            { s with
              images := s.images ++ [{ name := baker.texture_name ++ "_" ++ m0, width := baker.width, height := baker.height }] }
            ⟨m, hmr, e, he2⟩
          refine ⟨hfalse,
            ⟨[{ name := baker.texture_name ++ "_" ++ m0, width := baker.width, height := baker.height }] ++ suf, ?_⟩,
            hrep⟩
          rw [hsuf]
          simp

lemma report_ed (s : BakeState) (msg : String) :
    (report s msg).engine = s.engine ∧ (report s msg).device = s.device := ⟨rfl, rfl⟩

lemma clean_up_ed (s : BakeState) (sp : Option String) :
    (clean_up s sp).2.engine = s.engine ∧ (clean_up s sp).2.device = s.device := ⟨rfl, rfl⟩

lemma prepTexLoop_ed (baker : Baker) (tid : Nat) :
    ∀ (ms : List String) (s : BakeState),
      (prepTexLoop baker tid ms s).2.engine = s.engine ∧
      (prepTexLoop baker tid ms s).2.device = s.device := by
  intro ms
  induction ms with
  | nil => intro s; exact ⟨rfl, rfl⟩
  | cons m rest ih =>
    intro s
    unfold prepTexLoop
    simp only [newNode]
    cases hf : findImage s.images (baker.texture_name ++ "_" ++ m) with
    | none => exact ⟨rfl, rfl⟩
    | some img =>
      by_cases hm : m ≠ "diffuse"
      · simp only [if_pos hm]
        exact ⟨(ih _).1, (ih _).2⟩
      · simp only [if_neg hm]
        exact ⟨(ih _).1, (ih _).2⟩

lemma prepare_new_nodes_ed (baker : Baker) (s : BakeState) (tid : Nat) :
    (prepare_new_nodes baker s tid).2.engine = s.engine ∧
    (prepare_new_nodes baker s tid).2.device = s.device := by
  simp only [prepare_new_nodes]
  split
  · exact ⟨rfl, rfl⟩
  · split
    · exact ⟨rfl, rfl⟩
    · split
      · exact ⟨rfl, rfl⟩
      · split
        next e s2 heq =>
          have h := prepTexLoop_ed baker tid s.textures_to_create
            { s with texture_nodes := pyUpdate1 s.texture_nodes tid [] }
          rw [heq] at h
          exact h
        next s2 heq =>
          have h := prepTexLoop_ed baker tid s.textures_to_create
            { s with texture_nodes := pyUpdate1 s.texture_nodes tid [] }
          rw [heq] at h
          repeat' split
          all_goals exact h

lemma prepMaterials_ed (baker : Baker) :
    ∀ (materials : List Material) (accN : List (Nat × Option Nat)) (accO : List (Nat × Nat))
      (s : BakeState),
      (prepMaterials baker materials accN accO s).2.engine = s.engine ∧
      (prepMaterials baker materials accN accO s).2.device = s.device := by
  intro materials
  induction materials with
  | nil => intro accN accO s; exact ⟨rfl, rfl⟩
  | cons m rest ih =>
    intro accN accO s
    unfold prepMaterials
    rcases hp : prepare_new_nodes baker s m.treeId with ⟨o, s1⟩
    have hs1 : s1.engine = s.engine ∧ s1.device = s.device := by
      have h := prepare_new_nodes_ed baker s m.treeId
      rw [hp] at h
      exact h
    cases o with
    | exn e => exact hs1
    | noOutput => exact hs1
    | ok newE oldE =>
      exact ⟨((ih _ _ _).1).trans hs1.1, ((ih _ _ _).2).trans hs1.2⟩

lemma save_textures_ed (env : HostEnv) (s : BakeState) :
    (save_textures env s).2.engine = s.engine ∧ (save_textures env s).2.device = s.device := by
  unfold save_textures
  repeat' split
  all_goals exact ⟨rfl, rfl⟩

lemma connectPhase_ed (baker : Baker) (newC : List (Nat × Option Nat))
    (oldC : List (Nat × Nat)) (s : BakeState) :
    (connectPhase baker newC oldC s).2.engine = s.engine ∧
    (connectPhase baker newC oldC s).2.device = s.device := by
  simp only [connectPhase]
  repeat' split
  all_goals exact ⟨rfl, rfl⟩

lemma glossyPhase_ed (baker : Baker) (s : BakeState) :
    (glossyPhase baker s).2.engine = s.engine ∧ (glossyPhase baker s).2.device = s.device := by
  unfold glossyPhase
  split
  · rcases hc : clean_up s (some "glossy") with ⟨e, s1⟩
    have hs1 : s1.engine = s.engine ∧ s1.device = s.device := by
      have h := clean_up_ed s (some "glossy")
      rw [hc] at h
      exact h
    cases e with
    | some e0 => exact hs1
    | none => exact hs1
  · exact ⟨rfl, rfl⟩

lemma afterConnect_ed (baker : Baker) (s : BakeState) :
    (afterConnect baker s).2.engine = s.engine ∧
    (afterConnect baker s).2.device = s.device := by
  unfold afterConnect
  split
  · split
    next e s4 heq =>
      have h := clean_up_ed s none
      rw [heq] at h
      exact h
    next s4 heq =>
      have h := clean_up_ed s none
      rw [heq] at h
      have h2 := glossyPhase_ed baker s4
      exact ⟨h2.1.trans h.1, h2.2.trans h.2⟩
  · exact glossyPhase_ed baker s

lemma afterSave_ed (baker : Baker) (newC : List (Nat × Option Nat))
    (oldC : List (Nat × Nat)) (s : BakeState) :
    (afterSave baker newC oldC s).2.engine = s.engine ∧
    (afterSave baker newC oldC s).2.device = s.device := by
  unfold afterSave
  split
  next e s3 heq =>
    have h := connectPhase_ed baker newC oldC s
    rw [heq] at h
    exact h
  next s3 heq =>
    have h := connectPhase_ed baker newC oldC s
    rw [heq] at h
    have h2 := afterConnect_ed baker s3
    exact ⟨h2.1.trans h.1, h2.2.trans h.2⟩

lemma afterBake_ed (baker : Baker) (env : HostEnv) (newC : List (Nat × Option Nat))
    (oldC : List (Nat × Nat)) (s : BakeState) :
    (afterBake baker env newC oldC s).2.engine = s.engine ∧
    (afterBake baker env newC oldC s).2.device = s.device := by
  unfold afterBake
  split
  next e s1 heq =>
    have h := save_textures_ed env s
    rw [heq] at h
    exact h
  next s1 heq =>
    have h := save_textures_ed env s
    rw [heq] at h
    have h2 := afterSave_ed baker newC oldC s1
    exact ⟨h2.1.trans h.1, h2.2.trans h.2⟩
  next s1 heq =>
    have h := save_textures_ed env s
    rw [heq] at h
    split
    next e s2 heq2 =>
      have h2 := clean_up_ed s1 none
      rw [heq2] at h2
      exact ⟨h2.1.trans h.1, h2.2.trans h.2⟩
    next s2 heq2 =>
      have h2 := clean_up_ed s1 none
      rw [heq2] at h2
      have h3 := afterSave_ed baker newC oldC s2
      exact ⟨(h3.1.trans h2.1).trans h.1, (h3.2.trans h2.2).trans h.2⟩

lemma patchRemove_id (tid nid : Nat) (t : NodeTree) : (patchRemove tid nid t).id = t.id := by
  unfold patchRemove
  split <;> rfl

lemma patchRemove_of_ne (tid nid : Nat) (t : NodeTree) (h : ¬ t.id = tid) :
    patchRemove tid nid t = t := by
  unfold patchRemove
  rw [if_neg h]

lemma map_patchRemove_of_forall_ne (tid nid : Nat) :
    ∀ (l : List NodeTree), (∀ u ∈ l, ¬ u.id = tid) → l.map (patchRemove tid nid) = l := by
  intro l
  induction l with
  | nil => intro _; rfl
  | cons t rest ih =>
    intro h
    rw [List.map_cons, patchRemove_of_ne _ _ _ (h t (by simp)),
      ih (fun u hu => h u (by simp [hu]))]

lemma removeNode_eq_patch :
    ∀ (trees : List NodeTree) (tid nid : Nat),
      (trees.map NodeTree.id).Nodup →
      (∃ t ∈ trees, t.id = tid ∧ nid ∈ t.nodes) →
      removeNode trees tid nid = some (trees.map (patchRemove tid nid)) := by
  intro trees
  induction trees with
  | nil =>
    intro tid nid _ hex
    obtain ⟨t, ht, _⟩ := hex
    simp at ht
  | cons t rest ih =>
    intro tid nid hnd hex
    rw [List.map_cons, List.nodup_cons] at hnd
    by_cases hid : t.id = tid
    · have hmem : nid ∈ t.nodes := by
        obtain ⟨u, hu, huid, hunid⟩ := hex
        rcases List.mem_cons.mp hu with rfl | hur
        · exact hunid
        · exfalso
          apply hnd.1
          have h1 : u.id ∈ rest.map NodeTree.id := List.mem_map_of_mem NodeTree.id hur
          rw [huid, ← hid] at h1
          exact h1
      unfold removeNode
      rw [if_pos hid, if_pos hmem, List.map_cons]
      have hrest : rest.map (patchRemove tid nid) = rest := by
        apply map_patchRemove_of_forall_ne
        intro u hu hEq
        apply hnd.1
        have h1 : u.id ∈ rest.map NodeTree.id := List.mem_map_of_mem NodeTree.id hu
        rw [hEq, ← hid] at h1
        exact h1
      rw [hrest]
    · unfold removeNode
      rw [if_neg hid]
      have hex2 : ∃ u ∈ rest, u.id = tid ∧ nid ∈ u.nodes := by
        obtain ⟨u, hu, huid, hunid⟩ := hex
        rcases List.mem_cons.mp hu with rfl | hur
        · exact absurd huid hid
        · exact ⟨u, hur, huid, hunid⟩
      rw [ih tid nid hnd.2 hex2, List.map_cons, patchRemove_of_ne _ _ _ hid]
      rfl

lemma removeNode_none :
    ∀ (trees : List NodeTree) (tid nid : Nat),
      (∀ t ∈ trees, t.id = tid → ¬ nid ∈ t.nodes) →
      removeNode trees tid nid = none := by
  intro trees
  induction trees with
  | nil => intro tid nid _; rfl
  | cons t rest ih =>
    intro tid nid h
    unfold removeNode
    by_cases hid : t.id = tid
    · rw [if_pos hid, if_neg (h t (by simp) hid)]
    · rw [if_neg hid, ih tid nid (fun u hu => h u (by simp [hu]))]
      rfl

lemma nodes_nodup_map_patch (tid nid : Nat) (trees : List NodeTree)
    (h : ∀ t ∈ trees, t.nodes.Nodup) :
    ∀ t2 ∈ trees.map (patchRemove tid nid), t2.nodes.Nodup := by
  intro t2 ht2
  obtain ⟨t, ht, rfl⟩ := List.mem_map.mp ht2
  unfold patchRemove
  split
  · exact List.Nodup.erase nid (h t ht)
  · exact h t ht

lemma mem_patchRemove_nodes (tid nid : Nat) (t : NodeTree) (hnd : t.nodes.Nodup) (n : Nat) :
    n ∈ (patchRemove tid nid t).nodes ↔ (n ∈ t.nodes ∧ ¬(t.id = tid ∧ n = nid)) := by
  unfold patchRemove
  split
  next h =>
    show n ∈ t.nodes.erase nid ↔ _
    rw [List.Nodup.mem_erase_iff hnd]
    constructor
    · rintro ⟨hne, hmem⟩
      exact ⟨hmem, fun hc => hne hc.2⟩
    · rintro ⟨hmem, hnot⟩
      exact ⟨fun hn => hnot ⟨h, hn⟩, hmem⟩
  next h =>
    constructor
    · intro hmem
      exact ⟨hmem, fun hc => h hc.1⟩
    · intro hc
      exact hc.1

lemma patchAll_mem :
    ∀ (pairs : List (Nat × Nat)) (trees : List NodeTree),
      (∀ t ∈ trees, t.nodes.Nodup) →
      ∀ t2 ∈ patchAll pairs trees, ∃ t ∈ trees, t2.id = t.id ∧ t2.nodes.Nodup ∧
        (∀ n, n ∈ t2.nodes ↔ (n ∈ t.nodes ∧ ¬ (t.id, n) ∈ pairs)) := by
  intro pairs
  induction pairs with
  | nil =>
    intro trees hnodes t2 ht2
    refine ⟨t2, ht2, rfl, hnodes t2 ht2, fun n => ?_⟩
    simp
  | cons pr rest ih =>
    intro trees hnodes t2 ht2
    obtain ⟨t1, ht1, hid12, hnd2, hchar2⟩ := ih (trees.map (patchRemove pr.1 pr.2))
      (nodes_nodup_map_patch pr.1 pr.2 trees hnodes) t2 ht2
    obtain ⟨t0, ht0, rfl⟩ := List.mem_map.mp ht1
    refine ⟨t0, ht0, ?_, hnd2, fun n => ?_⟩
    · rw [hid12, patchRemove_id]
    · rw [hchar2 n, mem_patchRemove_nodes pr.1 pr.2 t0 (hnodes t0 ht0) n, patchRemove_id]
      rw [List.mem_cons, Prod.ext_iff]
      constructor
      · rintro ⟨⟨hmem, hne⟩, hnrest⟩
        refine ⟨hmem, fun hc => ?_⟩
        rcases hc with hc | hc
        · exact hne ⟨hc.1.symm ▸ rfl, hc.2⟩
        · exact hnrest hc
      · rintro ⟨hmem, hnot⟩
        refine ⟨⟨hmem, fun hc => hnot (Or.inl ?_)⟩, fun hc => hnot (Or.inr hc)⟩
        exact ⟨hc.1, hc.2⟩

lemma removeList_ok :
    ∀ (pairs : List (Nat × Nat)) (trees : List NodeTree),
      (trees.map NodeTree.id).Nodup →
      (∀ t ∈ trees, t.nodes.Nodup) →
      (∀ pr ∈ pairs, ∃ t ∈ trees, t.id = pr.1 ∧ pr.2 ∈ t.nodes) →
      pairs.Nodup →
      removeList trees pairs = (none, patchAll pairs trees) := by
  intro pairs
  induction pairs with
  | nil => intro trees _ _ _ _; rfl
  | cons pr rest ih =>
    intro trees hids hnodes hvalid hnd
    obtain ⟨tid, nid⟩ := pr
    rw [List.nodup_cons] at hnd
    unfold removeList
    rw [removeNode_eq_patch trees tid nid hids (by simpa using hvalid (tid, nid) (by simp))]
    have hids2 : ((trees.map (patchRemove tid nid)).map NodeTree.id).Nodup := by
      rw [List.map_map]
      have : (NodeTree.id ∘ patchRemove tid nid) = NodeTree.id := by
        funext u
        exact patchRemove_id tid nid u
      rw [this]
      exact hids
    have hvalid2 : ∀ pr2 ∈ rest, ∃ t ∈ trees.map (patchRemove tid nid),
        t.id = pr2.1 ∧ pr2.2 ∈ t.nodes := by
      intro pr2 hpr2
      obtain ⟨t, ht, htid, htn⟩ := hvalid pr2 (by simp [hpr2])
      refine ⟨patchRemove tid nid t, List.mem_map_of_mem _ ht, ?_, ?_⟩
      · rw [patchRemove_id]
        exact htid
      · rw [mem_patchRemove_nodes tid nid t (hnodes t ht)]
        refine ⟨htn, fun hc => ?_⟩
        apply hnd.1
        have : pr2 = (tid, nid) := by
          rw [Prod.ext_iff]
          exact ⟨by rw [← htid, hc.1], hc.2 ▸ rfl⟩
        rw [← this]
        exact hpr2
    show removeList (trees.map (patchRemove tid nid)) rest =
      (none, patchAll ((tid, nid) :: rest) trees)
    rw [ih (trees.map (patchRemove tid nid)) hids2
      (nodes_nodup_map_patch tid nid trees hnodes) hvalid2 hnd.2]
    rfl

lemma removeList_append :
    ∀ (xs ys : List (Nat × Nat)) (trees : List NodeTree),
      removeList trees (xs ++ ys) =
        match removeList trees xs with
        | (none, t2) => removeList t2 ys
        | (some e, t2) => (some e, t2) := by
  intro xs
  induction xs with
  | nil => intro ys trees; rfl
  | cons pr rest ih =>
    intro ys trees
    obtain ⟨tid, nid⟩ := pr
    have hstep : ∀ (l : List (Nat × Nat)) (tr : List NodeTree),
        removeList tr ((tid, nid) :: l) =
          match removeNode tr tid nid with
          | none => (some "ReferenceError: node has been removed", tr)
          | some t2 => removeList t2 l := fun l tr => rfl
    rw [List.cons_append, hstep (rest ++ ys) trees, hstep rest trees]
    cases removeNode trees tid nid with
    | none => rfl
    | some t2 => exact ih ys t2

lemma cleanUpGo_none_eq :
    ∀ (tn : List (Nat × List (String × Nat))) (trees : List NodeTree),
      cleanUpGo none tn trees = removeList trees (createdPairs tn) := by
  intro tn
  induction tn with
  | nil => intro trees; rfl
  | cons p rest ih =>
    intro trees0
    obtain ⟨tid, dict⟩ := p
    have hstep : cleanUpGo none ((tid, dict) :: rest) trees0 =
        match removeList trees0 (dict.map (fun q => (tid, q.2))) with
        | (some e, trees2) => (some e, trees2)
        | (none, trees2) => cleanUpGo none rest trees2 := rfl
    rw [hstep]
    rw [show createdPairs ((tid, dict) :: rest) =
      dict.map (fun q => (tid, q.2)) ++ createdPairs rest from rfl]
    rw [removeList_append]
    rcases hrl : removeList trees0 (dict.map (fun q => (tid, q.2))) with ⟨e, t2⟩
    rw [hrl]
    cases e with
    | some e0 => rfl
    | none => exact ih t2

end Simplifier

end BlenderExport

-- ======================================================================
-- Claim theorems
-- ======================================================================

namespace BlenderExport

namespace Claims

open Simplifier ExportTester Scenario

/-- C8: the option-matrix generator is a pure function: for every base name,
argument name, value list and extra-argument dict it maps each value v to the
key base_name + "_" + lowercase v bound to the dict binding argument_name to
v, merged with the extra arguments; in particular
expand("scale", "global_scale", ["2.0"]) produces exactly the mapping from
"scale_2.0" to the dict binding "global_scale" to "2.0". -/
theorem expand_options_spec :
    (expand_options "scale" "global_scale" ["2.0"] [] =
      [("scale_2.0", [("global_scale", PyVal.str "2.0")])]) ∧
    (∀ (basename argname : String) (values : List String) (extra : List (String × PyVal))
       (v : String), v ∈ values →
       ((values.map (fun u => basename ++ "_" ++ strLower u)).Nodup) →
       assocFind (expand_options basename argname values extra) (basename ++ "_" ++ strLower v) =
         some (extra.foldl (fun dd q => pyUpdate1 dd q.1 q.2) [(argname, PyVal.str v)])) := by
  constructor
  · decide
  · intro basename argname values extra v hv hnd
    have hkeys : ((values.map
        (fun u => (basename ++ "_" ++ strLower u, pyDict [(argname, PyVal.str u)]))).map
          Prod.fst).Nodup := by
      rw [List.map_map]
      simpa [Function.comp] using hnd
    have hfind : assocFind (values.map
        (fun u => (basename ++ "_" ++ strLower u, pyDict [(argname, PyVal.str u)])))
          (basename ++ "_" ++ strLower v) = some (pyDict [(argname, PyVal.str v)]) :=
      assocFind_keyed_map (fun u : String => basename ++ "_" ++ strLower u)
        (fun u : String => pyDict [(argname, PyVal.str u)]) values v hv hnd
    cases extra with
    | nil =>
      show assocFind (pyDict (values.map
        (fun u => (basename ++ "_" ++ strLower u, pyDict [(argname, PyVal.str u)]))))
          (basename ++ "_" ++ strLower v) = _
      rw [pyDict_nodup _ hkeys, hfind]
      rfl
    | cons q qs =>
      show assocFind ((pyDict (values.map
        (fun u => (basename ++ "_" ++ strLower u, pyDict [(argname, PyVal.str u)])))).map
          (fun p => (p.1, List.foldl (fun dd r => pyUpdate1 dd r.1 r.2) p.2 (q :: qs))))
          (basename ++ "_" ++ strLower v) = _
      rw [pyDict_nodup _ hkeys,
        assocFind_map_snd (fun dd => List.foldl (fun dd r => pyUpdate1 dd r.1 r.2) dd (q :: qs)),
        hfind]
      rfl

/-- C8 witness: a concrete row from the fbx table of the source. -/
theorem expand_options_spec_witness :
    ("FACE" ∈ ["OFF", "FACE", "EDGE"]) ∧
    assocFind (expand_options "mesh_smooth_type" "mesh_smooth_type" ["OFF", "FACE", "EDGE"] [])
        ("mesh_smooth_type" ++ "_" ++ strLower "FACE") =
      some (List.foldl (fun dd (q : String × PyVal) => pyUpdate1 dd q.1 q.2)
        [("mesh_smooth_type", PyVal.str "FACE")] []) :=
  ⟨by decide, expand_options_spec.2 "mesh_smooth_type" "mesh_smooth_type"
    ["OFF", "FACE", "EDGE"] [] "FACE" (by decide) (by decide)⟩

/-- C9: refreshing the material list rebuilds one entry per material slot of
the active object, and an entry is selected exactly when the previous list
recorded a same-named material as selected (the last recorded flag wins, per
Python dict write semantics); every other entry is unselected. -/
theorem material_list_refresh_preserves_selection (group : List (String × Bool))
    (slots : List String) :
    update_material_list group (some slots) =
      slots.map (fun nm => (nm, wasSelected group nm)) := by
  have h : ∀ nm : String,
      (match assocFind (pyDict group) nm with
       | some true => true
       | _ => false) = wasSelected group nm := by
    intro nm
    rw [assocFind_pyDict]
    unfold wasSelected
    cases hl : lastAssoc group nm with
    | none => rfl
    | some b => cases b <;> rfl
  have hf : (fun nm : String =>
      (nm, match assocFind (pyDict group) nm with
           | some true => true
           | _ => false)) = fun nm : String => (nm, wasSelected group nm) := by
    funext nm
    rw [h nm]
  exact congrArg (fun f => List.map f slots) hf

/-- C7 counterexample: a scene whose two visible meshes both live in the
Separate_objects collection produces one grouped exporter invocation per
option-set, not one invocation per object as the claimed count N times the
sum of the option counts predicts. -/
theorem batch_export_count_collection_counterexample :
    totalExportCalls sceneTwoInCollection [["default"]] = 1 ∧
    visibleMeshCount sceneTwoInCollection * ([["default"]].map List.length).sum = 2 ∧
    totalExportCalls sceneTwoInCollection [["default"]] ≠
      visibleMeshCount sceneTwoInCollection * ([["default"]].map List.length).sum := by
  decide

/-- C7 amended: batch export performs exactly M times the sum of the
per-format option-set counts exporter invocations, where M counts each
visible mesh outside the Separate_objects collection once and the whole
collection once when it contains a visible mesh; in particular the collection
is exported at most once per format and option-set. -/
theorem batch_export_call_count (objs : List SceneObject)
    (formatOptions : List (List String)) :
    totalExportCalls objs formatOptions =
      effectiveObjectCount objs * (formatOptions.map List.length).sum := by
  unfold totalExportCalls
  induction formatOptions with
  | nil => simp
  | cons opts rest ih =>
    simp only [List.map_cons, List.sum_cons]
    rw [performExport_length, ih, Nat.mul_add]

/-- C1 counterexample: on the bake-RuntimeError failure path the cleanup
runs once inside bake_textures and once more in execute; the second run is
not well-defined: it attempts to remove the already-removed diffuse sample
node and raises, so the operator ends in an uncaught host exception (with
zero residual created nodes, removed by the first run). -/
theorem bake_double_cleanup_raises :
    (executeBake baker0 sp0 envBakeFail st0).1 =
      OpResult.EXCEPTION "ReferenceError: node has been removed" ∧
    (executeBake baker0 sp0 envBakeFail st0).2.trees = [tree0] ∧
    (executeBake baker0 sp0 envBakeFail st0).2.reports =
      ["Texture name refers to image which was deleted on disk, please use another name."] := by
  decide

/-- C2: evaluation at the failing input: two selected objects A and B; the
export succeeds, the active object and mode are restored, but the restore
loop (which deselects everything before selecting each remembered object)
leaves only the last object B selected instead of the full selection. -/
theorem export_restores_only_last_selected :
    es0.selected = ["A", "B"] ∧
    (executeExport ecfg es0).1 = OpResult.FINISHED ∧
    (executeExport ecfg es0).2.selected = ["B"] ∧
    (executeExport ecfg es0).2.active = es0.active ∧
    (executeExport ecfg es0).2.mode = es0.mode ∧
    (executeExport ecfg es0).2.objects = es0.objects := by
  decide

/-- C3 counterexample: a successful bake_textures call entered with the
device set to GPU and the baker preferring CPU returns with the device still
CPU: the cycles device setting is never saved or restored (the engine is). -/
theorem bake_device_not_restored :
    stBake.device = "GPU" ∧
    (bake_textures baker0 env0 [mat0] stBake).1 = Flow.ret true ∧
    (bake_textures baker0 env0 [mat0] stBake).2.device = "CPU" ∧
    (bake_textures baker0 env0 [mat0] stBake).2.engine = stBake.engine := by
  decide

/-- C4 counterexample: a no-materials-selected validation failure is reported
and cancelled, but state is mutated: the scene flag model_unwrapped, true
before the call, is reset to false on entry. -/
theorem bake_validation_mutates_unwrap_flag :
    (executeBake baker0 sp0 envNoMat stUnwrapped).1 = OpResult.CANCELLED ∧
    (executeBake baker0 sp0 envNoMat stUnwrapped).2.reports = ["No materials selected"] ∧
    stUnwrapped.model_unwrapped = true ∧
    (executeBake baker0 sp0 envNoMat stUnwrapped).2.model_unwrapped = false := by
  decide

/-- C5 counterexample: with channels diffuse and normal requested and an
existing tex_normal of different dimensions, generate_texture fails with the
resolution error but has already allocated a new image buffer for the diffuse
channel processed before the conflict: it does not allocate nothing. -/
theorem resolution_conflict_allocates_earlier_channel :
    (generate_texture bakerTwo stConflict).1 = false ∧
    (generate_texture bakerTwo stConflict).2.reports = [resolutionErrorMsg] ∧
    stConflict.images.length = 1 ∧
    (generate_texture bakerTwo stConflict).2.images.length = 2 := by
  decide

/-- C6: evaluation at the failing input: the per-object export directory is
unavailable, save_textures reports the error and returns False, but the
missing early return lets bake_textures continue: the nodes are cleaned up,
then cleaned up again, and the operator ends in an uncaught exception rather
than returning the CANCELLED error status. -/
theorem bake_save_failure_raises_not_cancelled :
    (executeBake baker0 sp0 envDirFail st0).1 =
      OpResult.EXCEPTION "ReferenceError: node has been removed" ∧
    "Cannot access chosen dir." ∈ (executeBake baker0 sp0 envDirFail st0).2.reports ∧
    (executeBake baker0 sp0 envDirFail st0).2.trees = [tree0] := by
  decide

/-- C10 counterexample: with the bake toggle disabled and zero selected
objects the operator cancels without reporting any error, so an invocation
with a selection count different from one does not always report. -/
theorem bake_disabled_cancels_silently :
    envNoSel.selectedCount = 0 ∧
    (executeBake baker0 spNoBake envNoSel st0).1 = OpResult.CANCELLED ∧
    (executeBake baker0 spNoBake envNoSel st0).2.reports = [] := by
  decide

/-- C10 amended: when the bake toggle is enabled, every invocation with a
selection count different from one reports the single-object error and
cancels before creating any image buffer or any node; with the toggle
disabled the operator cancels silently before the selection check. -/
theorem bake_single_object_guard (baker : Baker) (sp : SimplifierProps) (env : HostEnv)
    (s : BakeState) (hb : sp.bake = true) (hn : env.selectedCount ≠ 1) :
    (executeBake baker sp env s).1 = OpResult.CANCELLED ∧
    (executeBake baker sp env s).2.reports = s.reports ++ ["One object needs to be selected"] ∧
    (executeBake baker sp env s).2.images = s.images ∧
    (executeBake baker sp env s).2.trees = s.trees := by
  unfold executeBake
  simp [hb, hn, report]

/-- C10 witness: three selected objects with the bake toggle enabled. -/
theorem bake_single_object_guard_witness :
    sp0.bake = true ∧ envThreeSel.selectedCount ≠ 1 ∧
    ((executeBake baker0 sp0 envThreeSel st0).1 = OpResult.CANCELLED ∧
     (executeBake baker0 sp0 envThreeSel st0).2.reports =
       st0.reports ++ ["One object needs to be selected"] ∧
     (executeBake baker0 sp0 envThreeSel st0).2.images = st0.images ∧
     (executeBake baker0 sp0 envThreeSel st0).2.trees = st0.trees) :=
  ⟨rfl, by decide, bake_single_object_guard baker0 sp0 envThreeSel st0 rfl (by decide)⟩

/-- C4 amended: a validation failure of the bake operator (no materials
selected, empty texture name, or inaccessible export path with export-after
set) is reported and cancelled, and with the unwrap option disabled it leaves
the images, node trees, UV layers and object scale untouched; but the scene
flag model_unwrapped does not keep its pre-call value: it is reset to false
on entry.  (With the unwrap option enabled, the unwrap, which applies the
scale and reprojects the UVs, additionally runs before the material and
texture-name checks.) -/
theorem bake_validation_failure_effects (baker : Baker) (sp : SimplifierProps) (env : HostEnv)
    (s : BakeState)
    (hfresh : s.texture_nodes = [])
    (hbake : sp.bake = true) (hunwrap : sp.unwrap = false)
    (hsel : env.selectedCount = 1) (huv : env.uvLayers = true)
    (hfail :
      env.material_group.filter (fun p => p.2 && env.activeSlots.contains p.1.name) = [] ∨
      strStrip baker.texture_name = "" ∨
      (baker.export_after = true ∧ sp.export_dir_exists = false)) :
    (executeBake baker sp env s).1 = OpResult.CANCELLED ∧
    (∃ m, (executeBake baker sp env s).2.reports = s.reports ++ [m]) ∧
    (executeBake baker sp env s).2.images = s.images ∧
    (executeBake baker sp env s).2.trees = s.trees ∧
    (executeBake baker sp env s).2.uvProjected = s.uvProjected ∧
    (executeBake baker sp env s).2.scaleApplied = s.scaleApplied ∧
    (executeBake baker sp env s).2.model_unwrapped = false := by
  suffices h : ∃ msg, executeBake baker sp env s =
      (OpResult.CANCELLED, report { s with model_unwrapped := false } msg) by
    obtain ⟨msg, heq⟩ := h
    rw [heq]
    exact ⟨rfl, ⟨msg, rfl⟩, rfl, rfl, rfl, rfl, rfl⟩
  by_cases hc : (baker.export_after && !sp.export_dir_exists) = true
  · refine ⟨"Cannot access chosen dir.", ?_⟩
    unfold executeBake
    simp [hbake, hsel, hc]
  · cases hfil : env.material_group.filter (fun p => p.2 && env.activeSlots.contains p.1.name) with
    | nil =>
      refine ⟨"No materials selected", ?_⟩
      unfold executeBake
      simp only [hbake, hsel, hc, hunwrap, huv]
      simp [hbake, hsel, hc, hunwrap, huv, hfil]
      intro x hx hslots
      exfalso
      have hxf : (x, true) ∈
          env.material_group.filter (fun p => p.2 && env.activeSlots.contains p.1.name) := by
        rw [List.mem_filter]
        exact ⟨hx, by simp [hslots]⟩
      rw [hfil] at hxf
      cases hxf
    | cons a l =>
      rcases hfail with hmat | hname | hexp
      · rw [hfil] at hmat
        cases hmat
      · refine ⟨"No texture name set.", ?_⟩
        unfold executeBake generate_texture
        simp [hbake, hsel, hc, hunwrap, huv, hfil, hname, clean_up, cleanUpGo, hfresh, report]
        have ha : a ∈
            env.material_group.filter (fun p => p.2 && env.activeSlots.contains p.1.name) := by
          rw [hfil]
          exact List.mem_cons_self a l
        rw [List.mem_filter] at ha
        obtain ⟨hag, hap⟩ := ha
        have hap2 : a.2 = true ∧ a.1.name ∈ env.activeSlots := by
          simpa using hap
        have h2sel : a.2 = true := hap2.1
        have h2slot : a.1.name ∈ env.activeSlots := hap2.2
        refine ⟨a.1, ?_, h2slot⟩
        have heta : (a.1, true) = a := by
          rw [← h2sel]
        rw [heta]
        exact hag
      · exact absurd (by simp [hexp.1, hexp.2]) hc

/-- C4 witness: no materials selected, model_unwrapped set before the call. -/
theorem bake_validation_failure_effects_witness :
    stUnwrapped.texture_nodes = [] ∧
    ((executeBake baker0 sp0 envNoMat stUnwrapped).1 = OpResult.CANCELLED ∧
     (∃ m, (executeBake baker0 sp0 envNoMat stUnwrapped).2.reports = stUnwrapped.reports ++ [m]) ∧
     (executeBake baker0 sp0 envNoMat stUnwrapped).2.images = stUnwrapped.images ∧
     (executeBake baker0 sp0 envNoMat stUnwrapped).2.trees = stUnwrapped.trees ∧
     (executeBake baker0 sp0 envNoMat stUnwrapped).2.uvProjected = stUnwrapped.uvProjected ∧
     (executeBake baker0 sp0 envNoMat stUnwrapped).2.scaleApplied = stUnwrapped.scaleApplied ∧
     (executeBake baker0 sp0 envNoMat stUnwrapped).2.model_unwrapped = false) :=
  ⟨rfl, bake_validation_failure_effects baker0 sp0 envNoMat stUnwrapped rfl rfl rfl rfl rfl
    (Or.inl (by decide))⟩

/-- C5 amended: when some requested channel collides with an existing image
of different dimensions (and a texture name is set), generate_texture always
fails with the resolution-conflict error; existing images are never resized,
overwritten or removed (the image list is only ever extended), but image
buffers for channels processed before the conflicting one may already have
been allocated and are not rolled back. -/
theorem generate_texture_conflict_fails (baker : Baker) (s : BakeState)
    (hname : ¬ strStrip baker.texture_name = "")
    (hconf : ∃ m ∈ baker.bake_types.map (fun n => strLower n),
      ∃ e, texture_exists s.images (baker.texture_name ++ "_" ++ m) baker.width baker.height =
        Except.error e) :
    (generate_texture baker s).1 = false ∧
    (∃ suffix, (generate_texture baker s).2.images = s.images ++ suffix) ∧
    (generate_texture baker s).2.reports = s.reports ++ [resolutionErrorMsg] := by
  unfold generate_texture
  rw [if_neg hname]
  exact generateLoop_conflict baker (baker.bake_types.map (fun n => strLower n))
    { s with textures_to_create := baker.bake_types.map (fun n => strLower n) } hconf

/-- C5 witness: diffuse and normal requested against an existing 512 by 512
tex_normal. -/
theorem generate_texture_conflict_fails_witness :
    (¬ strStrip bakerTwo.texture_name = "") ∧
    ((generate_texture bakerTwo stConflict).1 = false ∧
     (∃ suffix, (generate_texture bakerTwo stConflict).2.images = stConflict.images ++ suffix) ∧
     (generate_texture bakerTwo stConflict).2.reports =
       stConflict.reports ++ [resolutionErrorMsg]) :=
  ⟨by decide, generate_texture_conflict_fails bakerTwo stConflict (by decide)
    ⟨"normal", by decide, "Cannot change textures resolution", by rfl⟩⟩

/-- C3 amended: for every bake_textures invocation the active render engine
equals its pre-call value when the function returns, on every path (paths
that never reach the engine switch leave it untouched; all others restore it
in the finally clause); the render device setting however is not restored:
whenever the function returns success it equals the device configured in the
bake settings, not its pre-call value. -/
theorem bake_textures_engine_restored_device_set (baker : Baker) (env : HostEnv)
    (materials : List Material) (s : BakeState) :
    (bake_textures baker env materials s).2.engine = s.engine ∧
    ((bake_textures baker env materials s).1 = Flow.ret true →
      (bake_textures baker env materials s).2.device = baker.device) := by
  simp only [bake_textures]
  split
  next e s1 heq =>
    have h := prepMaterials_ed baker materials [] [] { s with texture_nodes := [] }
    rw [heq] at h
    exact ⟨h.1, fun hc => by simp at hc⟩
  next nm s1 heq =>
    have h := prepMaterials_ed baker materials [] [] { s with texture_nodes := [] }
    rw [heq] at h
    exact ⟨h.1, fun hc => by simp at hc⟩
  next newC oldC s1 heq =>
    have h := prepMaterials_ed baker materials [] [] { s with texture_nodes := [] }
    rw [heq] at h
    split
    next e heq2 =>
      exact ⟨h.1, fun hc => by simp at hc⟩
    next heq2 =>
      split
      next e s4 heq3 =>
        exact ⟨h.1, fun hc => by simp at hc⟩
      next s4 heq3 =>
        exact ⟨h.1, fun hc => by simp at hc⟩
    next heq2 =>
      exact ⟨(afterBake_ed baker env newC oldC _).1.trans h.1,
        fun _ => (afterBake_ed baker env newC oldC _).2⟩

/-- C3 witness: the successful bake scenario, discharging the success
hypothesis of the device conjunct. -/
theorem bake_textures_engine_restored_device_set_witness :
    (bake_textures baker0 env0 [mat0] stBake).1 = Flow.ret true ∧
    (bake_textures baker0 env0 [mat0] stBake).2.device = baker0.device :=
  ⟨by decide, (bake_textures_engine_restored_device_set baker0 env0 [mat0] stBake).2 (by decide)⟩

/-- C1 amended: under the well-formedness that holds when the bake operator
has just created its nodes (distinct tree identities, duplicate-free node
lists, every recorded node present in its tree, distinct recorded nodes), a
single execution of clean_up is well-defined and removes exactly the created
nodes: it raises nothing and afterwards a node is in a tree exactly when it
was there before and was not recorded as created.  Cleanup is however not
idempotent: because texture_nodes is not cleared, running clean_up a second
time (as the bake-RuntimeError and save-failure paths do) raises a host
error. -/
theorem clean_up_once_removes_exactly_created (s : BakeState)
    (hids : (s.trees.map NodeTree.id).Nodup)
    (hnodes : ∀ t ∈ s.trees, t.nodes.Nodup)
    (hvalid : ∀ pr ∈ createdPairs s.texture_nodes,
      ∃ t ∈ s.trees, t.id = pr.1 ∧ pr.2 ∈ t.nodes)
    (hdist : (createdPairs s.texture_nodes).Nodup) :
    (clean_up s none).1 = none ∧
    (∀ t2 ∈ (clean_up s none).2.trees, ∃ t ∈ s.trees, t2.id = t.id ∧
      (∀ n, n ∈ t2.nodes ↔ (n ∈ t.nodes ∧ ¬ (t.id, n) ∈ createdPairs s.texture_nodes))) ∧
    (createdPairs s.texture_nodes ≠ [] →
      (clean_up (clean_up s none).2 none).1.isSome = true) := by
  have hgo : cleanUpGo none s.texture_nodes s.trees =
      (none, patchAll (createdPairs s.texture_nodes) s.trees) := by
    rw [cleanUpGo_none_eq]
    exact removeList_ok (createdPairs s.texture_nodes) s.trees hids hnodes hvalid hdist
  have h1 : (clean_up s none).1 = none := by
    show (cleanUpGo none s.texture_nodes s.trees).1 = none
    rw [hgo]
  have h2trees : (clean_up s none).2.trees =
      patchAll (createdPairs s.texture_nodes) s.trees := by
    show (cleanUpGo none s.texture_nodes s.trees).2 = _
    rw [hgo]
  refine ⟨h1, ?_, ?_⟩
  · intro t2 ht2
    rw [h2trees] at ht2
    obtain ⟨t, ht, hid, hnd2, hchar⟩ :=
      patchAll_mem (createdPairs s.texture_nodes) s.trees hnodes t2 ht2
    exact ⟨t, ht, hid, hchar⟩
  · intro hne
    have hgo2 : (clean_up (clean_up s none).2 none).1 =
        (cleanUpGo none s.texture_nodes (clean_up s none).2.trees).1 := rfl
    rw [hgo2, cleanUpGo_none_eq, h2trees]
    cases hcp : createdPairs s.texture_nodes with
    | nil => exact absurd hcp hne
    | cons c0 more =>
      obtain ⟨tid0, nid0⟩ := c0
      have hstep : removeList (patchAll ((tid0, nid0) :: more) s.trees)
          ((tid0, nid0) :: more) =
          match removeNode (patchAll ((tid0, nid0) :: more) s.trees) tid0 nid0 with
          | none => (some "ReferenceError: node has been removed",
              patchAll ((tid0, nid0) :: more) s.trees)
          | some t2 => removeList t2 more := rfl
      rw [hstep]
      have hnone : removeNode (patchAll ((tid0, nid0) :: more) s.trees) tid0 nid0 = none := by
        apply removeNode_none
        intro t2 ht2 hid2 hmem
        obtain ⟨t, ht, hid, hnd2, hchar⟩ :=
          patchAll_mem ((tid0, nid0) :: more) s.trees hnodes t2 ht2
        have hc := (hchar nid0).mp hmem
        apply hc.2
        have hteq : t.id = tid0 := by
          rw [← hid]
          exact hid2
        rw [hteq]
        exact List.mem_cons_self _ _
      rw [hnone]
      rfl

/-- C1 witness: the state right after creating the diffuse sample node. -/
theorem clean_up_once_removes_exactly_created_witness :
    ((stCreated.trees.map NodeTree.id).Nodup ∧
     (∀ t ∈ stCreated.trees, t.nodes.Nodup) ∧
     (∀ pr ∈ createdPairs stCreated.texture_nodes,
       ∃ t ∈ stCreated.trees, t.id = pr.1 ∧ pr.2 ∈ t.nodes) ∧
     (createdPairs stCreated.texture_nodes).Nodup) ∧
    ((clean_up stCreated none).1 = none ∧
     (∀ t2 ∈ (clean_up stCreated none).2.trees, ∃ t ∈ stCreated.trees, t2.id = t.id ∧
       (∀ n, n ∈ t2.nodes ↔ (n ∈ t.nodes ∧ ¬ (t.id, n) ∈ createdPairs stCreated.texture_nodes))) ∧
     (createdPairs stCreated.texture_nodes ≠ [] →
       (clean_up (clean_up stCreated none).2 none).1.isSome = true)) :=
  ⟨⟨by decide, by decide, by decide, by decide⟩,
    clean_up_once_removes_exactly_created stCreated (by decide) (by decide) (by decide) (by decide)⟩

end Claims

end BlenderExport
